import Mathlib

/-!
Shallow embedding of the n-body simulation core (`src/body.rs`, `src/universe.rs`).
`f64` values are modelled as real numbers; `DVec2` is a pair of reals with the
componentwise operations the source uses.  Vectors of bodies are Lean lists;
`Vec::remove` is `List.eraseIdx`, `Vec::push` appends at the end.
-/

namespace NBody

noncomputable section

/-- Two-dimensional vector of doubles (`notan::math::DVec2`). -/
structure DVec2 where
  x : ℝ
  y : ℝ

instance : Add DVec2 := ⟨fun a b => ⟨a.x + b.x, a.y + b.y⟩⟩

instance : Sub DVec2 := ⟨fun a b => ⟨a.x - b.x, a.y - b.y⟩⟩

instance : HMul DVec2 ℝ DVec2 := ⟨fun v c => ⟨v.x * c, v.y * c⟩⟩

instance : HDiv DVec2 ℝ DVec2 := ⟨fun v c => ⟨v.x / c, v.y / c⟩⟩

@[simp] theorem DVec2.add_def (a b : DVec2) : a + b = ⟨a.x + b.x, a.y + b.y⟩ := rfl

@[simp] theorem DVec2.sub_def (a b : DVec2) : a - b = ⟨a.x - b.x, a.y - b.y⟩ := rfl

@[simp] theorem DVec2.mul_def (v : DVec2) (c : ℝ) : v * c = ⟨v.x * c, v.y * c⟩ := rfl

@[simp] theorem DVec2.div_def (v : DVec2) (c : ℝ) : v / c = ⟨v.x / c, v.y / c⟩ := rfl

/-- `DVec2::length_squared`. -/
def DVec2.length_squared (v : DVec2) : ℝ := v.x * v.x + v.y * v.y

/-- `DVec2::length`. -/
def DVec2.length (v : DVec2) : ℝ := Real.sqrt v.length_squared

/-- `DVec2::distance_squared`. -/
def DVec2.distance_squared (a b : DVec2) : ℝ := (a - b).length_squared

/-- `DVec2::distance`. -/
def DVec2.distance (a b : DVec2) : ℝ := (a - b).length

/-- `DVec2::normalize`: divide by the length. -/
def DVec2.normalize (v : DVec2) : DVec2 := v / v.length

/-- `f64::cbrt`: real, sign-preserving cube root. -/
def cbrt (x : ℝ) : ℝ := if 0 ≤ x then x ^ ((1 : ℝ) / 3) else -((-x) ^ ((1 : ℝ) / 3))

/-- A body (`src/body.rs`): position, velocity and mass. -/
structure Body where
  position : DVec2
  velocity : DVec2
  mass : ℝ

/-- `Body::default()`: origin, at rest, mass one. -/
instance : Inhabited Body := ⟨⟨⟨0, 0⟩, ⟨0, 0⟩, 1⟩⟩

/-- `Body::update`: integrate the velocity over time. -/
def Body.update (b : Body) (delta_time : ℝ) : Body :=
  { b with position := b.position + b.velocity * delta_time }

/-- Settings to simulate the universe with (`UniverseSettings`). -/
structure UniverseSettings where
  gravitational_constant : ℝ
  enable_collisions : Bool

/-! ## Collision phase of `Universe::update` -/

/-- The collision test of `Universe::update`: distance at most the sum of the
cube-root radii. -/
def colliding (a b : Body) : Prop :=
  DVec2.distance a.position b.position ≤ cbrt a.mass + cbrt b.mass

instance (a b : Body) : Decidable (colliding a b) := by
  unfold colliding; infer_instance

/-- The inner loop of the collision scan: the first `j` with
`start ≤ j < l.length` such that bodies `i` and `j` collide. -/
def findCollisionFrom (l : List Body) (i : ℕ) (j : ℕ) : Option ℕ :=
  if h : j < l.length then
    if colliding (l.getD i default) (l.getD j default) then some j
    else findCollisionFrom l i (j + 1)
  else none
termination_by l.length - j

/-- The body pushed on a merge: mass-weighted average of bodies `i` and `j`,
with mass the total mass. -/
def mergeBody (l : List Body) (i j : ℕ) : Body :=
  let bi := l.getD i default
  let bj := l.getD j default
  let total_mass := bi.mass + bj.mass
  let mass_ratio1 := bi.mass / total_mass
  let mass_ratio2 := 1 - mass_ratio1
  { position := bi.position * mass_ratio1 + bj.position * mass_ratio2
    velocity := bi.velocity * mass_ratio1 + bj.velocity * mass_ratio2
    mass := total_mass }

/-- A merge: push the merged body, then remove index `j`, then index `i`. -/
def mergeBodies (l : List Body) (i j : ℕ) : List Body :=
  ((l ++ [mergeBody l i j]).eraseIdx j).eraseIdx i

/-- One outer iteration of the collision scan: find the first colliding `j`
for this `i`; on a hit merge and break out of the inner loop. -/
def collideStep (l : List Body) (i : ℕ) : List Body :=
  match findCollisionFrom l i (i + 1) with
  | none => l
  | some j => mergeBodies l i j

/-- The whole collision phase: the outer bound is the length read once,
before any merge. -/
def collisionPhase (l : List Body) : List Body :=
  (List.range l.length).foldl collideStep l

/-! ## Gravity phase of `Universe::update` -/

/-- One inner iteration of the gravity scan, acting on bodies `i` and `j`:
skip if the squared distance is zero, otherwise apply the symmetric
velocity updates in source order. -/
def gravityPair (g dt : ℝ) (l : List Body) (i j : ℕ) : List Body :=
  let bi := l.getD i default
  let bj := l.getD j default
  let distance_squared := DVec2.distance_squared bi.position bj.position
  if distance_squared > 0 then
    let force := (bj.position - bi.position).normalize * g / distance_squared
    let mass := bj.mass
    let l1 := l.set i { bi with velocity := bi.velocity + force * mass * dt }
    let bi1 := l1.getD i default
    let bj1 := l1.getD j default
    l1.set j { bj1 with velocity := bj1.velocity - force * bi1.mass * dt }
  else l

/-- The inner gravity loop for a fixed `i`: `j` runs over `i+1 .. len`. -/
def gravityInner (g dt : ℝ) (l : List Body) (i : ℕ) : List Body :=
  (List.range' (i + 1) (l.length - (i + 1))).foldl (fun acc j => gravityPair g dt acc i j) l

/-- The outer gravity loop: `i` runs over `0 .. len`. -/
def gravityPhase (g dt : ℝ) (l : List Body) : List Body :=
  (List.range l.length).foldl (fun acc i => gravityInner g dt acc i) l

/-- `Universe::update` on the body collection: collision phase (when enabled),
gravity phase, then per-body integration. -/
def update (s : UniverseSettings) (delta_time : ℝ) (l : List Body) : List Body :=
  let l1 := if s.enable_collisions then collisionPhase l else l
  let l2 := gravityPhase s.gravitational_constant delta_time l1
  l2.map (fun b => b.update delta_time)

/-! ## Generation (`Universe::generate_bodies`) -/

/-- `std::ops::Range<f64>` as used by the generation settings. -/
structure FRange where
  start : ℝ
  stop : ℝ

/-- `Range::is_empty`: the range holds nothing when `start < stop` fails. -/
def FRange.isEmptyRange (r : FRange) : Prop := ¬ r.start < r.stop

instance (r : FRange) : Decidable r.isEmptyRange := by
  unfold FRange.isEmptyRange; infer_instance

/-- Settings to generate the universe with (`GenerationSettings`). -/
structure GenerationSettings where
  seed : ℕ
  body_amount : ℕ
  position_range : FRange
  velocity_range : FRange
  mass_range : FRange
  tangential_velocity : Bool

/-- Modelled from the spec: `notan::random::utils::Random`, the external
pseudo-random generator, is not part of this repository.  The spec only
requires it to be a deterministic state machine seeded from a number whose
range draw `gen_range(lo..hi)` returns a value in `[lo, hi)` when the range
is nonempty.  `new` seeds a state, `genRange` draws one value and advances
the state. -/
structure Rng (σ : Type) where
  new : ℕ → σ
  genRange : σ → ℝ → ℝ → ℝ × σ
  genRange_mem : ∀ s lo hi, lo < hi →
    lo ≤ (genRange s lo hi).1 ∧ (genRange s lo hi).1 < hi

/-- A magnitude draw: an empty range collapses to its start (consuming no
randomness), otherwise `gen_range` over the range. -/
def drawRange {σ : Type} (R : Rng σ) (r : FRange) (s : σ) : ℝ × σ :=
  if r.isEmptyRange then (r.start, s) else R.genRange s r.start r.stop

/-- One iteration of the generation loop: draw the position angle, the
velocity angle (perpendicular in tangential mode, else a fresh draw), then
the position magnitude, velocity magnitude and mass, in source order. -/
def genOneBody {σ : Type} (R : Rng σ) (gs : GenerationSettings) (s : σ) : Body × σ :=
  let pt := R.genRange s 0 (Real.pi * 2)
  let position_theta := pt.1
  let vt := if gs.tangential_velocity
    then (position_theta - Real.pi / 2, pt.2)
    else R.genRange pt.2 0 (Real.pi * 2)
  let velocity_theta := vt.1
  let pm := drawRange R gs.position_range vt.2
  let vm := drawRange R gs.velocity_range pm.2
  let m := drawRange R gs.mass_range vm.2
  (⟨DVec2.mk (Real.cos position_theta) (Real.sin position_theta) * pm.1,
    DVec2.mk (Real.cos velocity_theta) (Real.sin velocity_theta) * vm.1,
    m.1⟩, m.2)

/-- The generation loop, producing `n` bodies in order. -/
def genBodiesAux {σ : Type} (R : Rng σ) (gs : GenerationSettings) : ℕ → σ → List Body
  | 0, _ => []
  | n + 1, s =>
    let bs := genOneBody R gs s
    bs.1 :: genBodiesAux R gs n bs.2

/-- `Universe::generate_bodies`: seed from the wall clock (`now`) when the
settings seed is `0`, else from the settings seed verbatim; discard the old
collection and generate `body_amount` bodies. -/
def generate_bodies {σ : Type} (R : Rng σ) (now : ℕ) (gs : GenerationSettings) : List Body :=
  let seed := if gs.seed = 0 then now else gs.seed
  genBodiesAux R gs gs.body_amount (R.new seed)

/-- A concrete deterministic generator: every draw returns the lower bound. -/
def constRng : Rng Unit where
  new _ := ()
  genRange _ lo _ := (lo, ())
  genRange_mem _ lo hi h := ⟨le_refl lo, h⟩

/-! ## Panic-modelling (checked) semantics

Rust indexing, `Vec::remove` and `rand`'s `gen_range` panic when given an
out-of-range index or an empty range.  The checked functions below return
`none` exactly where the source would panic, and are otherwise the same
text as the unchecked functions. -/

/-- `Vec::remove` with its panic modelled: `none` when the index is out of
bounds. -/
def removeChecked (l : List Body) (i : ℕ) : Option (List Body) :=
  if i < l.length then some (l.eraseIdx i) else none

/-- Index-assignment with its panic modelled. -/
def setChecked (l : List Body) (i : ℕ) (b : Body) : Option (List Body) :=
  if i < l.length then some (l.set i b) else none

/-- `findCollisionFrom` with every `bodies[i]`, `bodies[j]` read checked. -/
def findCollisionFromChecked (l : List Body) (i : ℕ) (j : ℕ) : Option (Option ℕ) :=
  if h : j < l.length then
    match l.get? i, l.get? j with
    | some bi, some bj =>
      if colliding bi bj then some (some j) else findCollisionFromChecked l i (j + 1)
    | _, _ => none
  else some none
termination_by l.length - j

/-- `mergeBodies` with reads and removals checked. -/
def mergeBodiesChecked (l : List Body) (i j : ℕ) : Option (List Body) := do
  let bi ← l.get? i
  let bj ← l.get? j
  let total_mass := bi.mass + bj.mass
  let mass_ratio1 := bi.mass / total_mass
  let mass_ratio2 := 1 - mass_ratio1
  let merged : Body := ⟨bi.position * mass_ratio1 + bj.position * mass_ratio2,
    bi.velocity * mass_ratio1 + bj.velocity * mass_ratio2, total_mass⟩
  let l1 ← removeChecked (l ++ [merged]) j
  removeChecked l1 i

/-- `collideStep` with its accesses checked. -/
def collideStepChecked (l : List Body) (i : ℕ) : Option (List Body) := do
  match ← findCollisionFromChecked l i (i + 1) with
  | none => pure l
  | some j => mergeBodiesChecked l i j

/-- The collision phase with its accesses checked. -/
def collisionPhaseChecked (l : List Body) : Option (List Body) :=
  (List.range l.length).foldlM collideStepChecked l

/-- `gravityPair` with reads and writes checked. -/
def gravityPairChecked (g dt : ℝ) (l : List Body) (i j : ℕ) : Option (List Body) := do
  let bi ← l.get? i
  let bj ← l.get? j
  let distance_squared := DVec2.distance_squared bi.position bj.position
  if distance_squared > 0 then
    let force := (bj.position - bi.position).normalize * g / distance_squared
    let mass := bj.mass
    let l1 ← setChecked l i { bi with velocity := bi.velocity + force * mass * dt }
    let bi1 ← l1.get? i
    let bj1 ← l1.get? j
    setChecked l1 j { bj1 with velocity := bj1.velocity - force * bi1.mass * dt }
  else pure l

/-- The inner gravity loop with its accesses checked. -/
def gravityInnerChecked (g dt : ℝ) (l : List Body) (i : ℕ) : Option (List Body) :=
  (List.range' (i + 1) (l.length - (i + 1))).foldlM
    (fun acc j => gravityPairChecked g dt acc i j) l

/-- The gravity phase with its accesses checked. -/
def gravityPhaseChecked (g dt : ℝ) (l : List Body) : Option (List Body) :=
  (List.range l.length).foldlM (fun acc i => gravityInnerChecked g dt acc i) l

/-- `Universe::update` with every panicking operation checked. -/
def updateChecked (s : UniverseSettings) (delta_time : ℝ) (l : List Body) :
    Option (List Body) := do
  let l1 ← if s.enable_collisions then collisionPhaseChecked l else pure l
  let l2 ← gravityPhaseChecked s.gravitational_constant delta_time l1
  pure (l2.map (fun b => b.update delta_time))

/-- `gen_range` with its panic on an empty range modelled. -/
def genRangeChecked {σ : Type} (R : Rng σ) (s : σ) (lo hi : ℝ) : Option (ℝ × σ) :=
  if lo < hi then some (R.genRange s lo hi) else none

/-- `drawRange` with the draw checked. -/
def drawRangeChecked {σ : Type} (R : Rng σ) (r : FRange) (s : σ) : Option (ℝ × σ) :=
  if r.isEmptyRange then some (r.start, s) else genRangeChecked R s r.start r.stop

/-- `genOneBody` with every draw checked. -/
def genOneBodyChecked {σ : Type} (R : Rng σ) (gs : GenerationSettings) (s : σ) :
    Option (Body × σ) := do
  let pt ← genRangeChecked R s 0 (Real.pi * 2)
  let position_theta := pt.1
  let vt ← if gs.tangential_velocity
    then pure (position_theta - Real.pi / 2, pt.2)
    else genRangeChecked R pt.2 0 (Real.pi * 2)
  let velocity_theta := vt.1
  let pm ← drawRangeChecked R gs.position_range vt.2
  let vm ← drawRangeChecked R gs.velocity_range pm.2
  let m ← drawRangeChecked R gs.mass_range vm.2
  pure (⟨DVec2.mk (Real.cos position_theta) (Real.sin position_theta) * pm.1,
    DVec2.mk (Real.cos velocity_theta) (Real.sin velocity_theta) * vm.1,
    m.1⟩, m.2)

/-- The generation loop with every draw checked. -/
def genBodiesAuxChecked {σ : Type} (R : Rng σ) (gs : GenerationSettings) :
    ℕ → σ → Option (List Body)
  | 0, _ => some []
  | n + 1, s => do
    let bs ← genOneBodyChecked R gs s
    let rest ← genBodiesAuxChecked R gs n bs.2
    pure (bs.1 :: rest)

/-- `generate_bodies` with every draw checked. -/
def generate_bodiesChecked {σ : Type} (R : Rng σ) (now : ℕ) (gs : GenerationSettings) :
    Option (List Body) :=
  let seed := if gs.seed = 0 then now else gs.seed
  genBodiesAuxChecked R gs gs.body_amount (R.new seed)

/-! ## The collision scan as the spec words it

The spec asserts that after a merge at outer index `i` the scan re-evaluates
the same `i` against the mutated collection.  `specRescanPhase` follows those
words, for comparison with `collisionPhase`; the fuel bound `2 * length + 1`
covers every run, since each step either advances `i` or shrinks the
collection. -/

/-- One spec-worded scan: merge and stay at `i`, or advance to `i + 1`. -/
def specRescanAux : ℕ → List Body → ℕ → List Body
  | 0, l, _ => l
  | fuel + 1, l, i =>
    if i < l.length then
      match findCollisionFrom l i (i + 1) with
      | some j => specRescanAux fuel (mergeBodies l i j) i
      | none => specRescanAux fuel l (i + 1)
    else l

/-- The spec-worded collision phase: re-scan the same `i` after each merge. -/
def specRescanPhase (l : List Body) : List Body :=
  specRescanAux (2 * l.length + 1) l 0

/-- The collision scan written as explicit recursion: one `collideStep` at
each outer index, then advance to `i + 1`, with the outer bound `n` fixed. -/
def advanceScan (l : List Body) (i n : ℕ) : List Body :=
  if h : i < n then advanceScan (collideStep l i) (i + 1) n else l
termination_by n - i

/-- Total mass of a collection: the sum of the bodies' masses. -/
def totalMass (l : List Body) : ℝ := (l.map Body.mass).sum

end

/-! ## General list helpers -/

theorem getD_eraseIdx_of_lt {α : Type} (d : α) :
    ∀ (l : List α) (i j : ℕ), i < j → (l.eraseIdx j).getD i d = l.getD i d := by
  intro l
  induction l with
  | nil => intro i j _; rfl
  | cons a t ih =>
    intro i j hij
    cases j with
    | zero => omega
    | succ j =>
      cases i with
      | zero => rfl
      | succ i => exact ih i j (by omega)

theorem getD_append_of_lt {α : Type} (d : α) (l1 l2 : List α) (i : ℕ)
    (h : i < l1.length) : (l1 ++ l2).getD i d = l1.getD i d := by
  rw [List.getD_eq_getElem _ _ (by simp; omega), List.getD_eq_getElem _ _ h,
    List.getElem_append, dif_pos h]

theorem sum_map_eraseIdx {α : Type} (f : α → ℝ) (d : α) :
    ∀ (l : List α) (i : ℕ), i < l.length →
      ((l.eraseIdx i).map f).sum = (l.map f).sum - f (l.getD i d) := by
  intro l
  induction l with
  | nil => intro i h; simp at h
  | cons a t ih =>
    intro i h
    cases i with
    | zero => simp [List.getD]
    | succ i =>
      have := ih i (by simpa using h)
      simp only [List.eraseIdx_cons_succ, List.map_cons, List.sum_cons, this]
      simp [List.getD]
      ring

theorem foldl_preserve {α β : Type} (P : β → Prop) (f : β → α → β)
    (hf : ∀ b a, P b → P (f b a)) :
    ∀ (xs : List α) (b : β), P b → P (xs.foldl f b) := by
  intro xs
  induction xs with
  | nil => intro b hb; exact hb
  | cons a t ih => intro b hb; exact ih (f b a) (hf b a hb)

theorem foldlM_eq_foldl_of {α β : Type} (P : β → Prop) (fC : β → α → Option β)
    (f : β → α → β) (xs : List α)
    (hC : ∀ b a, a ∈ xs → P b → fC b a = some (f b a))
    (hP : ∀ b a, P b → P (f b a)) :
    ∀ b, P b → xs.foldlM fC b = some (xs.foldl f b) := by
  induction xs with
  | nil => intro b _; rfl
  | cons a t ih =>
    intro b hb
    have h1 : fC b a = some (f b a) := hC b a (by simp) hb
    simp only [List.foldlM, h1, List.foldl]
    exact ih (fun b a ha hb => hC b a (by simp [ha]) hb) (f b a) (hP b a hb)

/-! ## Bounds of the collision scan -/

theorem findCollisionFrom_some_aux (l : List Body) (i : ℕ) :
    ∀ n j k, l.length - j ≤ n → findCollisionFrom l i j = some k →
      j ≤ k ∧ k < l.length ∧ colliding (l.getD i default) (l.getD k default) := by
  intro n
  induction n with
  | zero =>
    intro j k hle h
    rw [findCollisionFrom, dif_neg (by omega)] at h
    exact absurd h (by simp)
  | succ n ih =>
    intro j k hle h
    rw [findCollisionFrom] at h
    by_cases hj : j < l.length
    · rw [dif_pos hj] at h
      by_cases hc : colliding (l.getD i default) (l.getD j default)
      · rw [if_pos hc] at h
        cases h
        exact ⟨le_refl _, hj, hc⟩
      · rw [if_neg hc] at h
        obtain ⟨h1, h2, h3⟩ := ih (j + 1) k (by omega) h
        exact ⟨by omega, h2, h3⟩
    · rw [dif_neg hj] at h
      exact absurd h (by simp)

theorem findCollisionFrom_bounds {l : List Body} {i j k : ℕ}
    (h : findCollisionFrom l i j = some k) :
    j ≤ k ∧ k < l.length ∧ colliding (l.getD i default) (l.getD k default) :=
  findCollisionFrom_some_aux l i l.length j k (by omega) h

theorem findCollisionFrom_none_of_ge (l : List Body) (i j : ℕ)
    (h : l.length ≤ j) : findCollisionFrom l i j = none := by
  rw [findCollisionFrom, dif_neg (by omega)]

/-! ## What a merge does to length, mass and membership -/

theorem mergeBody_mass (l : List Body) (i j : ℕ) :
    (mergeBody l i j).mass = (l.getD i default).mass + (l.getD j default).mass := rfl

theorem mergeBodies_length {l : List Body} {i j : ℕ} (hij : i < j) (hj : j < l.length) :
    (mergeBodies l i j).length + 1 = l.length := by
  have h1 : ((l ++ [mergeBody l i j]).eraseIdx j).length = l.length := by
    rw [List.length_eraseIdx, if_pos (by simp; omega)]
    simp
  unfold mergeBodies
  rw [List.length_eraseIdx, h1, if_pos (by omega)]
  omega

theorem mergeBodies_totalMass {l : List Body} {i j : ℕ} (hij : i < j)
    (hj : j < l.length) : totalMass (mergeBodies l i j) = totalMass l := by
  have hi : i < l.length := lt_trans hij hj
  have hXlen : (l ++ [mergeBody l i j]).length = l.length + 1 := by simp
  have hYlen : (((l ++ [mergeBody l i j]).eraseIdx j)).length = l.length := by
    rw [List.length_eraseIdx, if_pos (by omega)]
    omega
  unfold mergeBodies totalMass
  rw [sum_map_eraseIdx Body.mass default ((l ++ [mergeBody l i j]).eraseIdx j) i
      (by omega),
    sum_map_eraseIdx Body.mass default (l ++ [mergeBody l i j]) j (by omega),
    getD_eraseIdx_of_lt default (l ++ [mergeBody l i j]) i j hij,
    getD_append_of_lt default l [mergeBody l i j] i hi,
    getD_append_of_lt default l [mergeBody l i j] j hj]
  have hsum : ((l ++ [mergeBody l i j]).map Body.mass).sum
      = (l.map Body.mass).sum + (mergeBody l i j).mass := by simp
  rw [hsum, mergeBody_mass]
  ring

theorem mem_mergeBodies {l : List Body} {i j : ℕ} {b : Body}
    (hb : b ∈ mergeBodies l i j) : b ∈ l ∨ b = mergeBody l i j := by
  unfold mergeBodies at hb
  have h2 := List.mem_of_mem_eraseIdx (List.mem_of_mem_eraseIdx hb)
  rcases List.mem_append.mp h2 with h | h
  · exact Or.inl h
  · simp only [List.mem_singleton] at h
    exact Or.inr h

theorem getD_mass_pos {l : List Body} {i : ℕ} (hi : i < l.length)
    (hl : ∀ b ∈ l, 0 < b.mass) : 0 < (l.getD i default).mass := by
  rw [List.getD_eq_getElem _ _ hi]
  exact hl _ (List.getElem_mem hi)

/-! ## What one collision step does -/

theorem collideStep_totalMass (l : List Body) (i : ℕ) :
    totalMass (collideStep l i) = totalMass l := by
  unfold collideStep
  cases hf : findCollisionFrom l i (i + 1) with
  | none => rfl
  | some j =>
    obtain ⟨h1, h2, _⟩ := findCollisionFrom_bounds hf
    exact mergeBodies_totalMass (by omega) h2

theorem collideStep_length_cases (l : List Body) (i : ℕ) :
    (findCollisionFrom l i (i + 1) = none ∧ collideStep l i = l) ∨
      ((findCollisionFrom l i (i + 1)).isSome ∧ (collideStep l i).length + 1 = l.length) := by
  unfold collideStep
  cases hf : findCollisionFrom l i (i + 1) with
  | none => exact Or.inl ⟨rfl, rfl⟩
  | some j =>
    obtain ⟨h1, h2, _⟩ := findCollisionFrom_bounds hf
    exact Or.inr ⟨rfl, mergeBodies_length (by omega) h2⟩

theorem collideStep_mass_pos (l : List Body) (i : ℕ) (hl : ∀ b ∈ l, 0 < b.mass) :
    ∀ b ∈ collideStep l i, 0 < b.mass := by
  unfold collideStep
  cases hf : findCollisionFrom l i (i + 1) with
  | none => exact hl
  | some j =>
    obtain ⟨h1, h2, _⟩ := findCollisionFrom_bounds hf
    intro b hb
    rcases mem_mergeBodies hb with h | h
    · exact hl b h
    · rw [h, mergeBody_mass]
      have hi : i < l.length := by omega
      have hpi := getD_mass_pos hi hl
      have hpj := getD_mass_pos h2 hl
      linarith

/-! ## The collision phase preserves total mass, positivity, and never grows -/

theorem collisionPhase_totalMass (l : List Body) :
    totalMass (collisionPhase l) = totalMass l := by
  unfold collisionPhase
  refine foldl_preserve (fun x => totalMass x = totalMass l) collideStep ?_ _ l rfl
  intro b a hb
  show totalMass (collideStep b a) = totalMass l
  rw [collideStep_totalMass]
  exact hb

theorem collisionPhase_length_le (l : List Body) :
    (collisionPhase l).length ≤ l.length := by
  unfold collisionPhase
  refine foldl_preserve (fun x => x.length ≤ l.length) collideStep ?_ _ l (le_refl _)
  intro b a hb
  show (collideStep b a).length ≤ l.length
  rcases collideStep_length_cases b a with ⟨_, h⟩ | ⟨_, h⟩
  · rw [h]; exact hb
  · omega

theorem collisionPhase_mass_pos (l : List Body) (hl : ∀ b ∈ l, 0 < b.mass) :
    ∀ b ∈ collisionPhase l, 0 < b.mass := by
  unfold collisionPhase
  refine foldl_preserve (fun x => ∀ b ∈ x, 0 < b.mass) collideStep ?_ _ l hl
  intro b a hb
  exact collideStep_mass_pos b a hb

/-! ## The gravity phase and integration change no mass and no length -/

theorem set_map_mass (l : List Body) (i : ℕ) (b : Body)
    (h : b.mass = (l.getD i default).mass) :
    (l.set i b).map Body.mass = l.map Body.mass := by
  induction l generalizing i with
  | nil => rfl
  | cons a t ih =>
    cases i with
    | zero =>
      simp only [List.getD_cons_zero] at h
      simp [h]
    | succ i =>
      simp only [List.getD_cons_succ] at h
      simp [ih i h]

theorem gravityPair_map_mass (g dt : ℝ) (l : List Body) (i j : ℕ) :
    (gravityPair g dt l i j).map Body.mass = l.map Body.mass := by
  simp only [gravityPair]
  by_cases hds : DVec2.distance_squared (l.getD i default).position
      (l.getD j default).position > 0
  · rw [if_pos hds, set_map_mass, set_map_mass]
    · rfl
    · rfl
  · rw [if_neg hds]

theorem gravityPair_length (g dt : ℝ) (l : List Body) (i j : ℕ) :
    (gravityPair g dt l i j).length = l.length := by
  have h := congrArg List.length (gravityPair_map_mass g dt l i j)
  simpa using h

theorem gravityInner_map_mass (g dt : ℝ) (l : List Body) (i : ℕ) :
    (gravityInner g dt l i).map Body.mass = l.map Body.mass := by
  unfold gravityInner
  refine foldl_preserve (fun x => x.map Body.mass = l.map Body.mass)
    (fun acc j => gravityPair g dt acc i j) ?_ _ l rfl
  intro b a hb
  show (gravityPair g dt b i a).map Body.mass = l.map Body.mass
  rw [gravityPair_map_mass]
  exact hb

theorem gravityPhase_map_mass (g dt : ℝ) (l : List Body) :
    (gravityPhase g dt l).map Body.mass = l.map Body.mass := by
  unfold gravityPhase
  refine foldl_preserve (fun x => x.map Body.mass = l.map Body.mass)
    (fun acc i => gravityInner g dt acc i) ?_ _ l rfl
  intro b a hb
  show (gravityInner g dt b a).map Body.mass = l.map Body.mass
  rw [gravityInner_map_mass]
  exact hb

theorem gravityPhase_length (g dt : ℝ) (l : List Body) :
    (gravityPhase g dt l).length = l.length := by
  have h := congrArg List.length (gravityPhase_map_mass g dt l)
  simpa using h

theorem map_update_map_mass (dt : ℝ) (l : List Body) :
    ((l.map (fun b => b.update dt)).map Body.mass) = l.map Body.mass := by
  rw [List.map_map]
  rfl

theorem mass_pos_of_map_mass_eq {l' l : List Body}
    (h : l'.map Body.mass = l.map Body.mass) (hl : ∀ b ∈ l, 0 < b.mass) :
    ∀ b ∈ l', 0 < b.mass := by
  intro b hb
  have hmem : b.mass ∈ l'.map Body.mass := List.mem_map_of_mem _ hb
  rw [h] at hmem
  obtain ⟨a, ha, hab⟩ := List.mem_map.mp hmem
  rw [← hab]
  exact hl a ha

/-! ## `update`: total mass, length, positivity -/

theorem update_totalMass (s : UniverseSettings) (dt : ℝ) (l : List Body) :
    totalMass (update s dt l) = totalMass l := by
  unfold update totalMass
  rw [map_update_map_mass, gravityPhase_map_mass]
  by_cases hc : s.enable_collisions
  · simp only [hc, if_true]
    exact collisionPhase_totalMass l
  · simp [hc]

theorem update_length_le (s : UniverseSettings) (dt : ℝ) (l : List Body) :
    (update s dt l).length ≤ l.length := by
  unfold update
  rw [List.length_map, gravityPhase_length]
  by_cases hc : s.enable_collisions
  · simp only [hc, if_true]
    exact collisionPhase_length_le l
  · simp only [hc, if_false]
    exact le_refl _

theorem update_length_of_disabled (s : UniverseSettings) (dt : ℝ) (l : List Body)
    (hc : s.enable_collisions = false) : (update s dt l).length = l.length := by
  unfold update
  rw [List.length_map, gravityPhase_length, hc]
  simp

theorem update_mass_pos (s : UniverseSettings) (dt : ℝ) (l : List Body)
    (hl : ∀ b ∈ l, 0 < b.mass) : ∀ b ∈ update s dt l, 0 < b.mass := by
  unfold update
  intro b hb
  by_cases hc : s.enable_collisions
  · simp only [hc, if_true] at hb
    refine mass_pos_of_map_mass_eq ?_ (collisionPhase_mass_pos l hl) b hb
    rw [map_update_map_mass, gravityPhase_map_mass]
  · simp only [hc] at hb ⊢
    refine mass_pos_of_map_mass_eq ?_ hl b hb
    rw [map_update_map_mass, gravityPhase_map_mass]
    simp

/-! ## The checked semantics never panics: it equals `some` of the unchecked -/

theorem get?_eq_some_getD {l : List Body} {i : ℕ} (h : i < l.length) :
    l.get? i = some (l.getD i default) := by
  rw [List.get?_eq_getElem?, List.getElem?_eq_getElem h, List.getD_eq_getElem _ _ h]

theorem findCollisionFromChecked_eq_aux (l : List Body) (i : ℕ) (hi : i < l.length) :
    ∀ n j, l.length - j ≤ n →
      findCollisionFromChecked l i j = some (findCollisionFrom l i j) := by
  intro n
  induction n with
  | zero =>
    intro j hle
    rw [findCollisionFromChecked, findCollisionFrom, dif_neg (by omega), dif_neg (by omega)]
  | succ n ih =>
    intro j hle
    by_cases hj : j < l.length
    · rw [findCollisionFromChecked, findCollisionFrom, dif_pos hj, dif_pos hj,
        get?_eq_some_getD hi, get?_eq_some_getD hj]
      show (if colliding (l.getD i default) (l.getD j default) then some (some j)
        else findCollisionFromChecked l i (j + 1)) = _
      by_cases hc : colliding (l.getD i default) (l.getD j default)
      · rw [if_pos hc, if_pos hc]
      · rw [if_neg hc, if_neg hc]
        exact ih (j + 1) (by omega)
    · rw [findCollisionFromChecked, findCollisionFrom, dif_neg hj, dif_neg hj]

theorem findCollisionFromChecked_eq (l : List Body) (i j : ℕ) (hi : i < l.length) :
    findCollisionFromChecked l i j = some (findCollisionFrom l i j) :=
  findCollisionFromChecked_eq_aux l i hi l.length j (by omega)

theorem mergeBodiesChecked_eq {l : List Body} {i j : ℕ} (hij : i < j)
    (hj : j < l.length) : mergeBodiesChecked l i j = some (mergeBodies l i j) := by
  have hi : i < l.length := lt_trans hij hj
  unfold mergeBodiesChecked
  rw [get?_eq_some_getD hi, get?_eq_some_getD hj]
  simp only [Option.bind_eq_bind, Option.some_bind]
  rw [removeChecked, if_pos (by simp; omega)]
  simp only [Option.some_bind]
  rw [removeChecked, if_pos (by rw [List.length_eraseIdx, if_pos (by simp; omega)]; simp; omega)]
  rfl

theorem collideStepChecked_eq (l : List Body) (i : ℕ) :
    collideStepChecked l i = some (collideStep l i) := by
  unfold collideStepChecked collideStep
  by_cases hi : i < l.length
  · rw [findCollisionFromChecked_eq l i (i + 1) hi]
    simp only [Option.bind_eq_bind, Option.some_bind]
    cases hf : findCollisionFrom l i (i + 1) with
    | none => rfl
    | some j =>
      obtain ⟨h1, h2, _⟩ := findCollisionFrom_bounds hf
      exact mergeBodiesChecked_eq (by omega) h2
  · rw [findCollisionFrom_none_of_ge l i (i + 1) (by omega)]
    rw [findCollisionFromChecked, dif_neg (by omega)]
    rfl

theorem collisionPhaseChecked_eq (l : List Body) :
    collisionPhaseChecked l = some (collisionPhase l) := by
  unfold collisionPhaseChecked collisionPhase
  exact foldlM_eq_foldl_of (fun _ => True) collideStepChecked collideStep _
    (fun b a _ _ => collideStepChecked_eq b a) (fun _ _ _ => trivial) l trivial

theorem gravityPairChecked_eq (g dt : ℝ) {l : List Body} {i j : ℕ}
    (hi : i < l.length) (hj : j < l.length) :
    gravityPairChecked g dt l i j = some (gravityPair g dt l i j) := by
  unfold gravityPairChecked
  simp only [gravityPair]
  rw [get?_eq_some_getD hi, get?_eq_some_getD hj]
  simp only [Option.bind_eq_bind, Option.some_bind]
  by_cases hds : DVec2.distance_squared (l.getD i default).position
      (l.getD j default).position > 0
  · rw [if_pos hds, if_pos hds]
    rw [setChecked, if_pos hi]
    simp only [Option.some_bind]
    rw [get?_eq_some_getD (by rw [List.length_set]; exact hi),
      get?_eq_some_getD (by rw [List.length_set]; exact hj)]
    simp only [Option.some_bind]
    rw [setChecked, if_pos (by rw [List.length_set]; exact hj)]
  · rw [if_neg hds, if_neg hds]
    rfl

theorem gravityInnerChecked_eq (g dt : ℝ) (l : List Body) (i : ℕ) :
    gravityInnerChecked g dt l i = some (gravityInner g dt l i) := by
  unfold gravityInnerChecked gravityInner
  refine foldlM_eq_foldl_of (fun x => x.length = l.length)
    (fun acc j => gravityPairChecked g dt acc i j)
    (fun acc j => gravityPair g dt acc i j) _ ?_ ?_ l rfl
  · intro b a ha hb
    rw [List.mem_range'_1] at ha
    exact gravityPairChecked_eq g dt (by omega) (by omega)
  · intro b a hb
    show (gravityPair g dt b i a).length = l.length
    rw [gravityPair_length]
    exact hb

theorem gravityPhaseChecked_eq (g dt : ℝ) (l : List Body) :
    gravityPhaseChecked g dt l = some (gravityPhase g dt l) := by
  unfold gravityPhaseChecked gravityPhase
  exact foldlM_eq_foldl_of (fun _ => True) _ _ _
    (fun b a _ _ => gravityInnerChecked_eq g dt b a) (fun _ _ _ => trivial) l trivial

theorem updateChecked_eq (s : UniverseSettings) (dt : ℝ) (l : List Body) :
    updateChecked s dt l = some (update s dt l) := by
  unfold updateChecked
  simp only [update]
  by_cases hc : s.enable_collisions
  · simp only [hc, if_true]
    rw [collisionPhaseChecked_eq]
    simp only [Option.bind_eq_bind, Option.some_bind]
    rw [gravityPhaseChecked_eq]
    rfl
  · simp only [hc, Bool.false_eq_true, if_false, Option.pure_def,
      Option.bind_eq_bind, Option.some_bind]
    rw [gravityPhaseChecked_eq]
    rfl

/-! ## The checked generation never panics -/

theorem genRangeChecked_two_pi {σ : Type} (R : Rng σ) (s : σ) :
    genRangeChecked R s 0 (Real.pi * 2) = some (R.genRange s 0 (Real.pi * 2)) := by
  rw [genRangeChecked, if_pos (by positivity)]

theorem drawRangeChecked_eq {σ : Type} (R : Rng σ) (r : FRange) (s : σ) :
    drawRangeChecked R r s = some (drawRange R r s) := by
  unfold drawRangeChecked drawRange genRangeChecked
  by_cases h : r.isEmptyRange
  · rw [if_pos h, if_pos h]
  · rw [if_neg h, if_neg h, if_pos (not_not.mp h)]

theorem genOneBodyChecked_eq {σ : Type} (R : Rng σ) (gs : GenerationSettings) (s : σ) :
    genOneBodyChecked R gs s = some (genOneBody R gs s) := by
  unfold genOneBodyChecked
  simp only [genOneBody]
  rw [genRangeChecked_two_pi]
  simp only [Option.bind_eq_bind, Option.some_bind]
  by_cases ht : gs.tangential_velocity
  · simp only [ht, if_true]
    simp only [Option.some_bind, pure]
    rw [drawRangeChecked_eq]
    simp only [Option.some_bind]
    rw [drawRangeChecked_eq]
    simp only [Option.some_bind]
    rw [drawRangeChecked_eq]
    rfl
  · simp only [ht, Bool.false_eq_true, if_false]
    rw [genRangeChecked_two_pi]
    simp only [Option.some_bind]
    rw [drawRangeChecked_eq]
    simp only [Option.some_bind]
    rw [drawRangeChecked_eq]
    simp only [Option.some_bind]
    rw [drawRangeChecked_eq]
    rfl

theorem genBodiesAuxChecked_eq {σ : Type} (R : Rng σ) (gs : GenerationSettings) :
    ∀ (n : ℕ) (s : σ), genBodiesAuxChecked R gs n s = some (genBodiesAux R gs n s) := by
  intro n
  induction n with
  | zero => intro s; rfl
  | succ n ih =>
    intro s
    rw [genBodiesAuxChecked, genBodiesAux, genOneBodyChecked_eq]
    simp only [Option.bind_eq_bind, Option.some_bind]
    rw [ih]
    rfl

theorem generate_bodiesChecked_eq {σ : Type} (R : Rng σ) (now : ℕ)
    (gs : GenerationSettings) :
    generate_bodiesChecked R now gs = some (generate_bodies R now gs) := by
  unfold generate_bodiesChecked generate_bodies
  exact genBodiesAuxChecked_eq R gs gs.body_amount _

/-! ## The collision scan advances the outer index after each step -/

theorem foldl_collideStep_advanceScan :
    ∀ (c i : ℕ) (l : List Body),
      (List.range' i c).foldl collideStep l = advanceScan l i (i + c) := by
  intro c
  induction c with
  | zero =>
    intro i l
    rw [advanceScan, dif_neg (by omega)]
    rfl
  | succ c ih =>
    intro i l
    rw [List.range'_succ, List.foldl_cons, advanceScan, dif_pos (by omega)]
    have h1 := ih (i + 1) (collideStep l i)
    have h2 : i + 1 + c = i + (c + 1) := by omega
    rw [h2] at h1
    exact h1

theorem collisionPhase_eq_advanceScan (l : List Body) :
    collisionPhase l = advanceScan l 0 l.length := by
  unfold collisionPhase
  rw [List.range_eq_range']
  have h := foldl_collideStep_advanceScan l.length 0 l
  simpa using h

/-! ## Generation draws -/

theorem generate_bodies_time_indep {σ : Type} (R : Rng σ) (t1 t2 : ℕ)
    (gs : GenerationSettings) (h : gs.seed ≠ 0) :
    generate_bodies R t1 gs = generate_bodies R t2 gs := by
  unfold generate_bodies
  rw [if_neg h, if_neg h]

theorem drawRange_spec {σ : Type} (R : Rng σ) (r : FRange) (s : σ) :
    (drawRange R r s).1 = r.start ∨
      (r.start ≤ (drawRange R r s).1 ∧ (drawRange R r s).1 < r.stop) := by
  unfold drawRange
  by_cases h : r.isEmptyRange
  · rw [if_pos h]
    exact Or.inl rfl
  · rw [if_neg h]
    exact Or.inr (R.genRange_mem s _ _ (not_not.mp h))

theorem drawRange_eq_start {σ : Type} (R : Rng σ) {r : FRange}
    (h : r.start = r.stop) (s : σ) : (drawRange R r s).1 = r.start := by
  unfold drawRange
  rw [if_pos (show r.isEmptyRange by unfold FRange.isEmptyRange; rw [h]; exact lt_irrefl _)]

theorem drawRange_pos {σ : Type} (R : Rng σ) {r : FRange} (h : 0 < r.start) (s : σ) :
    0 < (drawRange R r s).1 := by
  rcases drawRange_spec R r s with h1 | ⟨h1, _⟩
  · rw [h1]
    exact h
  · linarith

theorem genOneBody_mass {σ : Type} (R : Rng σ) (gs : GenerationSettings) (s : σ) :
    ∃ t, (genOneBody R gs s).1.mass = (drawRange R gs.mass_range t).1 :=
  ⟨_, rfl⟩

theorem genOneBody_position {σ : Type} (R : Rng σ) (gs : GenerationSettings) (s : σ) :
    ∃ θ t, (genOneBody R gs s).1.position
      = DVec2.mk (Real.cos θ) (Real.sin θ) * (drawRange R gs.position_range t).1 :=
  ⟨_, _, rfl⟩

theorem genOneBody_velocity {σ : Type} (R : Rng σ) (gs : GenerationSettings) (s : σ) :
    ∃ θ t, (genOneBody R gs s).1.velocity
      = DVec2.mk (Real.cos θ) (Real.sin θ) * (drawRange R gs.velocity_range t).1 :=
  ⟨_, _, rfl⟩

theorem length_cos_sin_mul (θ c : ℝ) :
    (DVec2.mk (Real.cos θ) (Real.sin θ) * c).length = |c| := by
  simp only [DVec2.mul_def, DVec2.length, DVec2.length_squared]
  have h : Real.cos θ * c * (Real.cos θ * c) + Real.sin θ * c * (Real.sin θ * c)
      = (Real.sin θ ^ 2 + Real.cos θ ^ 2) * c ^ 2 := by ring
  rw [h, Real.sin_sq_add_cos_sq, one_mul, Real.sqrt_sq_eq_abs]

theorem genBodiesAux_mass_pos {σ : Type} (R : Rng σ) {gs : GenerationSettings}
    (h : 0 < gs.mass_range.start) :
    ∀ (n : ℕ) (s : σ), ∀ b ∈ genBodiesAux R gs n s, 0 < b.mass := by
  intro n
  induction n with
  | zero => intro s b hb; simp [genBodiesAux] at hb
  | succ n ih =>
    intro s b hb
    rw [genBodiesAux] at hb
    rcases List.mem_cons.mp hb with hb | hb
    · obtain ⟨t, hm⟩ := genOneBody_mass R gs s
      rw [hb, hm]
      exact drawRange_pos R h t
    · exact ih _ b hb

theorem genBodiesAux_mass_collapse {σ : Type} (R : Rng σ) {gs : GenerationSettings}
    (h : gs.mass_range.start = gs.mass_range.stop) :
    ∀ (n : ℕ) (s : σ), ∀ b ∈ genBodiesAux R gs n s, b.mass = gs.mass_range.start := by
  intro n
  induction n with
  | zero => intro s b hb; simp [genBodiesAux] at hb
  | succ n ih =>
    intro s b hb
    rw [genBodiesAux] at hb
    rcases List.mem_cons.mp hb with hb | hb
    · obtain ⟨t, hm⟩ := genOneBody_mass R gs s
      rw [hb, hm]
      exact drawRange_eq_start R h t
    · exact ih _ b hb

theorem genBodiesAux_position_collapse {σ : Type} (R : Rng σ) {gs : GenerationSettings}
    (h : gs.position_range.start = gs.position_range.stop) :
    ∀ (n : ℕ) (s : σ), ∀ b ∈ genBodiesAux R gs n s,
      b.position.length = |gs.position_range.start| := by
  intro n
  induction n with
  | zero => intro s b hb; simp [genBodiesAux] at hb
  | succ n ih =>
    intro s b hb
    rw [genBodiesAux] at hb
    rcases List.mem_cons.mp hb with hb | hb
    · obtain ⟨θ, t, hm⟩ := genOneBody_position R gs s
      rw [hb, hm, length_cos_sin_mul, drawRange_eq_start R h t]
    · exact ih _ b hb

theorem genBodiesAux_velocity_collapse {σ : Type} (R : Rng σ) {gs : GenerationSettings}
    (h : gs.velocity_range.start = gs.velocity_range.stop) :
    ∀ (n : ℕ) (s : σ), ∀ b ∈ genBodiesAux R gs n s,
      b.velocity.length = |gs.velocity_range.start| := by
  intro n
  induction n with
  | zero => intro s b hb; simp [genBodiesAux] at hb
  | succ n ih =>
    intro s b hb
    rw [genBodiesAux] at hb
    rcases List.mem_cons.mp hb with hb | hb
    · obtain ⟨θ, t, hm⟩ := genOneBody_velocity R gs s
      rw [hb, hm, length_cos_sin_mul, drawRange_eq_start R h t]
    · exact ih _ b hb

/-! ## Evaluation helpers for concrete universes -/

theorem cbrt_one_eq : cbrt 1 = 1 := by
  unfold cbrt
  rw [if_pos (by norm_num), Real.one_rpow]

theorem cbrt_pos {x : ℝ} (h : 0 < x) : 0 < cbrt x := by
  unfold cbrt
  rw [if_pos h.le]
  exact Real.rpow_pos_of_pos h _

theorem distance_self_eq_zero (v : DVec2) : DVec2.distance v v = 0 := by
  simp only [DVec2.distance, DVec2.length, DVec2.length_squared, DVec2.sub_def]
  simp [Real.sqrt_eq_zero']

theorem colliding_same_pos {a b : Body} (hp : a.position = b.position)
    (ha : 0 < a.mass) (hb : 0 < b.mass) : colliding a b := by
  unfold colliding
  rw [hp, distance_self_eq_zero]
  have h1 := cbrt_pos ha
  have h2 := cbrt_pos hb
  linarith

/-- A body at the origin, at rest, of mass one (the example building block). -/
def bUnit : Body := ⟨⟨0, 0⟩, ⟨0, 0⟩, 1⟩

/-- Three coincident unit-mass bodies. -/
def threeCoincident : List Body := [bUnit, bUnit, bUnit]

theorem bUnit_mass_pos : 0 < bUnit.mass := by norm_num [bUnit]

theorem findCollisionFrom_three : findCollisionFrom threeCoincident 0 1 = some 1 := by
  rw [findCollisionFrom, dif_pos (by norm_num [threeCoincident])]
  simp only [threeCoincident, List.getD_cons_zero, List.getD_cons_succ]
  rw [if_pos (colliding_same_pos rfl bUnit_mass_pos bUnit_mass_pos)]

/-- The merged body of two coincident unit masses. -/
def bTwo : Body := ⟨⟨0, 0⟩, ⟨0, 0⟩, 2⟩

theorem mergeBodies_three : mergeBodies threeCoincident 0 1 = [bUnit, bTwo] := by
  simp only [mergeBodies, mergeBody, threeCoincident, List.getD_cons_zero,
    List.getD_cons_succ, List.cons_append, List.nil_append, List.eraseIdx_cons_succ,
    List.eraseIdx_cons_zero]
  simp only [bUnit, bTwo, DVec2.mul_def, DVec2.add_def, Body.mk.injEq, DVec2.mk.injEq]
  norm_num

theorem collideStep_three : collideStep threeCoincident 0 = [bUnit, bTwo] := by
  unfold collideStep
  norm_num [findCollisionFrom_three, mergeBodies_three]

theorem collideStep_pair_one : collideStep [bUnit, bTwo] 1 = [bUnit, bTwo] := by
  unfold collideStep
  norm_num [show findCollisionFrom [bUnit, bTwo] 1 2 = none from by
    rw [findCollisionFrom, dif_neg (by norm_num)]]

theorem collideStep_pair_two : collideStep [bUnit, bTwo] 2 = [bUnit, bTwo] := by
  unfold collideStep
  norm_num [show findCollisionFrom [bUnit, bTwo] 2 3 = none from by
    rw [findCollisionFrom, dif_neg (by norm_num)]]

theorem collisionPhase_three : collisionPhase threeCoincident = [bUnit, bTwo] := by
  unfold collisionPhase
  rw [show threeCoincident.length = 3 from rfl, show List.range 3 = [0, 1, 2] from rfl]
  simp only [List.foldl_cons, List.foldl_nil]
  rw [collideStep_three, collideStep_pair_one, collideStep_pair_two]

theorem bTwo_mass_pos : 0 < bTwo.mass := by norm_num [bTwo]

theorem findCollisionFrom_pair01 : findCollisionFrom [bUnit, bTwo] 0 1 = some 1 := by
  rw [findCollisionFrom, dif_pos (by norm_num)]
  simp only [List.getD_cons_zero, List.getD_cons_succ]
  rw [if_pos (colliding_same_pos (show bUnit.position = bTwo.position from rfl)
    bUnit_mass_pos bTwo_mass_pos)]

/-- The merged body of all three coincident unit masses. -/
def bThree : Body := ⟨⟨0, 0⟩, ⟨0, 0⟩, 3⟩

theorem mergeBodies_pair : mergeBodies [bUnit, bTwo] 0 1 = [bThree] := by
  simp only [mergeBodies, mergeBody, List.getD_cons_zero, List.getD_cons_succ,
    List.cons_append, List.nil_append, List.eraseIdx_cons_succ, List.eraseIdx_cons_zero]
  simp only [bUnit, bTwo, bThree, DVec2.mul_def, DVec2.add_def, Body.mk.injEq,
    DVec2.mk.injEq]
  norm_num

theorem specRescan_three : specRescanPhase threeCoincident = [bThree] := by
  unfold specRescanPhase
  rw [show 2 * threeCoincident.length + 1 = 7 from rfl]
  show specRescanAux (6 + 1) threeCoincident 0 = [bThree]
  rw [specRescanAux, if_pos (by norm_num [threeCoincident])]
  norm_num [findCollisionFrom_three, mergeBodies_three]
  show specRescanAux (5 + 1) [bUnit, bTwo] 0 = [bThree]
  rw [specRescanAux, if_pos (by norm_num)]
  norm_num [findCollisionFrom_pair01, mergeBodies_pair]
  show specRescanAux (4 + 1) [bThree] 0 = [bThree]
  rw [specRescanAux, if_pos (by norm_num)]
  norm_num [show findCollisionFrom [bThree] 0 1 = none from by
    rw [findCollisionFrom, dif_neg (by norm_num)]]
  show specRescanAux (3 + 1) [bThree] 1 = [bThree]
  rw [specRescanAux, if_neg (by norm_num)]

/-! ## The two-body scenario: unit masses at distance one, G = 1, dt = 1 -/

/-- A body at `(1, 0)`, at rest, of mass one. -/
def bRight : Body := ⟨⟨1, 0⟩, ⟨0, 0⟩, 1⟩

theorem gravityPair_two :
    gravityPair 1 1 [bUnit, bRight] 0 1
      = [⟨⟨0, 0⟩, ⟨1, 0⟩, 1⟩, ⟨⟨1, 0⟩, ⟨-1, 0⟩, 1⟩] := by
  have hpos : DVec2.distance_squared bUnit.position bRight.position > 0 := by
    show DVec2.distance_squared ⟨0, 0⟩ ⟨1, 0⟩ > 0
    simp only [DVec2.distance_squared, DVec2.length_squared, DVec2.sub_def]
    norm_num
  simp only [gravityPair, List.getD_cons_zero, List.getD_cons_succ]
  rw [if_pos hpos]
  simp only [List.set_cons_zero, List.set_cons_succ, List.getD_cons_zero,
    List.getD_cons_succ]
  simp only [bUnit, bRight, DVec2.normalize, DVec2.distance_squared, DVec2.length,
    DVec2.length_squared, DVec2.sub_def, DVec2.mul_def, DVec2.div_def, DVec2.add_def]
  norm_num [Real.sqrt_one, Body.mk.injEq, DVec2.mk.injEq]

theorem gravityPhase_two :
    gravityPhase 1 1 [bUnit, bRight]
      = [⟨⟨0, 0⟩, ⟨1, 0⟩, 1⟩, ⟨⟨1, 0⟩, ⟨-1, 0⟩, 1⟩] := by
  unfold gravityPhase
  rw [show List.length [bUnit, bRight] = 2 from rfl, show List.range 2 = [0, 1] from rfl]
  simp only [List.foldl_cons, List.foldl_nil]
  have h0 : gravityInner 1 1 [bUnit, bRight] 0
      = [⟨⟨0, 0⟩, ⟨1, 0⟩, 1⟩, ⟨⟨1, 0⟩, ⟨-1, 0⟩, 1⟩] := by
    unfold gravityInner
    rw [show List.length [bUnit, bRight] - (0 + 1) = 1 from rfl,
      show List.range' (0 + 1) 1 = [1] from rfl]
    simp only [List.foldl_cons, List.foldl_nil]
    exact gravityPair_two
  rw [h0]
  unfold gravityInner
  rw [show List.length [(⟨⟨0, 0⟩, ⟨1, 0⟩, 1⟩ : Body), ⟨⟨1, 0⟩, ⟨-1, 0⟩, 1⟩] - (1 + 1) = 0
      from rfl]
  rfl

theorem update_two :
    update ⟨1, false⟩ 1 [bUnit, bRight]
      = [⟨⟨1, 0⟩, ⟨1, 0⟩, 1⟩, ⟨⟨0, 0⟩, ⟨-1, 0⟩, 1⟩] := by
  unfold update
  rw [show (⟨1, false⟩ : UniverseSettings).enable_collisions = false from rfl]
  simp only [Bool.false_eq_true, if_false]
  rw [gravityPhase_two]
  simp only [List.map_cons, List.map_nil, Body.update, DVec2.mul_def, DVec2.add_def]
  norm_num [Body.mk.injEq, DVec2.mk.injEq]

/-! # The claims -/

/-- C1, counterexample: the claim says that after a merge at outer index
`i` the outer loop re-evaluates the same `i` against the mutated
collection.  On three coincident unit-mass bodies the code's collision
phase leaves two bodies (the break advances the outer index past the
shifted survivor), while the claimed re-scan of the same `i` would cascade
and leave a single body of mass three. -/
theorem collisionPhase_not_rescan_cex :
    (collisionPhase threeCoincident).length = 2 ∧
      (specRescanPhase threeCoincident).length = 1 ∧
      collisionPhase threeCoincident ≠ specRescanPhase threeCoincident := by
  refine ⟨by rw [collisionPhase_three]; rfl, by rw [specRescan_three]; rfl, ?_⟩
  rw [collisionPhase_three, specRescan_three]
  intro h
  have hlen := congrArg List.length h
  simp at hlen

/-- C1, amended: in the collision phase, when the first colliding pair
`(i, j)` for outer index `i` is found, the pair is replaced by one merged
body and the inner loop is exited; the outer loop then advances to index
`i + 1` over the now-shifted collection (it neither re-scans the same `i`
nor restarts from `0`), with the outer bound fixed at the pre-scan
length. -/
theorem collisionPhase_advances (l : List Body) :
    collisionPhase l = advanceScan l 0 l.length :=
  collisionPhase_eq_advanceScan l

/-- C2: for every `GenerationSettings` with a nonzero seed, the bodies
`generate_bodies` produces do not depend on the wall clock: two calls with
identical settings yield identical collections whatever the current time
is at each call. -/
theorem generation_deterministic_nonzero_seed {σ : Type} (R : Rng σ)
    (t1 t2 : ℕ) (gs : GenerationSettings) (h : gs.seed ≠ 0) :
    generate_bodies R t1 gs = generate_bodies R t2 gs :=
  generate_bodies_time_indep R t1 t2 gs h

/-- Generation settings with seed `1` (the repository defaults otherwise). -/
def gsSeedOne : GenerationSettings := ⟨1, 2, ⟨0, 250⟩, ⟨0, 125⟩, ⟨1, 10⟩, false⟩

/-- C2, witness: with seed `1` the collections drawn at times `0` and `1`
coincide. -/
theorem generation_deterministic_witness :
    generate_bodies constRng 0 gsSeedOne = generate_bodies constRng 1 gsSeedOne :=
  generation_deterministic_nonzero_seed constRng 0 1 gsSeedOne (by decide)

/-- C3: the merged body's mass is the exact sum of the two input masses,
and one whole `update` call conserves the total mass of the system (the
gravity and integration phases never change any mass). -/
theorem merge_mass_sum_conserved (s : UniverseSettings) (dt : ℝ)
    (l : List Body) (i j : ℕ) :
    (mergeBody l i j).mass = (l.getD i default).mass + (l.getD j default).mass ∧
      totalMass (update s dt l) = totalMass l :=
  ⟨mergeBody_mass l i j, update_totalMass s dt l⟩

/-- C4: in the gravity phase, a pair at squared distance exactly `0` is
skipped: the pair interaction leaves the collection unchanged, so neither
velocity moves and the division by the squared distance is never reached. -/
theorem gravity_skips_coincident_pair (g dt : ℝ) (l : List Body) (i j : ℕ)
    (h : DVec2.distance_squared (l.getD i default).position
      (l.getD j default).position = 0) :
    gravityPair g dt l i j = l := by
  simp only [gravityPair]
  rw [if_neg (by rw [h]; exact lt_irrefl 0)]

/-- C4, witness: two unit masses at the origin are left untouched by their
pair interaction. -/
theorem gravity_skips_coincident_pair_witness :
    gravityPair 1 1 [bUnit, bUnit] 0 1 = [bUnit, bUnit] :=
  gravity_skips_coincident_pair 1 1 [bUnit, bUnit] 0 1 (by
    show DVec2.distance_squared ⟨0, 0⟩ ⟨0, 0⟩ = 0
    simp [DVec2.distance_squared, DVec2.length_squared])

/-- C5: `mass > 0` is an invariant: with a positive mass-range lower bound
every generated body has positive mass, and `update` preserves positivity
of every mass (a merge sums two positive masses; nothing else writes a
mass). -/
theorem mass_positive_invariant {σ : Type} (R : Rng σ) (now : ℕ)
    (gs : GenerationSettings) (s : UniverseSettings) (dt : ℝ) (l : List Body)
    (h1 : 0 < gs.mass_range.start) (h2 : ∀ b ∈ l, 0 < b.mass) :
    (∀ b ∈ generate_bodies R now gs, 0 < b.mass) ∧
      (∀ b ∈ update s dt l, 0 < b.mass) := by
  constructor
  · intro b hb
    exact genBodiesAux_mass_pos R h1 gs.body_amount _ b hb
  · exact update_mass_pos s dt l h2

/-- C5, witness: seed-one settings have mass-range lower bound `1 > 0`, and
a single unit mass keeps a positive mass through one step. -/
theorem mass_positive_invariant_witness :
    (∀ b ∈ generate_bodies constRng 0 gsSeedOne, 0 < b.mass) ∧
      (∀ b ∈ update ⟨1, true⟩ 1 [bUnit], 0 < b.mass) :=
  mass_positive_invariant constRng 0 gsSeedOne ⟨1, true⟩ 1 [bUnit]
    (by norm_num [gsSeedOne])
    (by
      intro b hb
      rw [List.mem_singleton] at hb
      rw [hb]
      exact bUnit_mass_pos)

/-- C6: for bodies `A{(0,0), rest, 1}` and `B{(1,0), rest, 1}`, `G = 1`,
collisions disabled, one step with `dt = 1` gives `A` positive and `B`
negative `x`-velocity of equal magnitude, and each position moves by its
post-force velocity times `dt` within that same step. -/
theorem two_body_scenario_step :
    0 < ((update ⟨1, false⟩ 1 [bUnit, bRight]).getD 0 default).velocity.x ∧
      ((update ⟨1, false⟩ 1 [bUnit, bRight]).getD 1 default).velocity.x < 0 ∧
      ((update ⟨1, false⟩ 1 [bUnit, bRight]).getD 0 default).velocity.x
        = -((update ⟨1, false⟩ 1 [bUnit, bRight]).getD 1 default).velocity.x ∧
      ((update ⟨1, false⟩ 1 [bUnit, bRight]).getD 0 default).position
        = bUnit.position
          + ((update ⟨1, false⟩ 1 [bUnit, bRight]).getD 0 default).velocity * (1 : ℝ) ∧
      ((update ⟨1, false⟩ 1 [bUnit, bRight]).getD 1 default).position
        = bRight.position
          + ((update ⟨1, false⟩ 1 [bUnit, bRight]).getD 1 default).velocity * (1 : ℝ) := by
  rw [update_two]
  simp only [List.getD_cons_zero, List.getD_cons_succ, bUnit, bRight,
    DVec2.mul_def, DVec2.add_def]
  norm_num [DVec2.mk.injEq]

/-- C7: an empty range (`start = stop`) collapses every draw to `start`:
all generated masses equal the mass-range start, all position and velocity
magnitudes equal the absolute value of the respective range start, and in
particular with position range `[5, 5)` every position magnitude is
exactly `5`. -/
theorem empty_range_collapse {σ : Type} (R : Rng σ) (now : ℕ)
    (gs : GenerationSettings) :
    (gs.position_range.start = gs.position_range.stop →
      ∀ b ∈ generate_bodies R now gs,
        b.position.length = |gs.position_range.start|) ∧
    (gs.velocity_range.start = gs.velocity_range.stop →
      ∀ b ∈ generate_bodies R now gs,
        b.velocity.length = |gs.velocity_range.start|) ∧
    (gs.mass_range.start = gs.mass_range.stop →
      ∀ b ∈ generate_bodies R now gs, b.mass = gs.mass_range.start) ∧
    (gs.position_range.start = 5 → gs.position_range.stop = 5 →
      ∀ b ∈ generate_bodies R now gs, b.position.length = 5) := by
  refine ⟨?_, ?_, ?_, ?_⟩
  · intro h b hb
    exact genBodiesAux_position_collapse R h gs.body_amount _ b hb
  · intro h b hb
    exact genBodiesAux_velocity_collapse R h gs.body_amount _ b hb
  · intro h b hb
    exact genBodiesAux_mass_collapse R h gs.body_amount _ b hb
  · intro h5a h5b b hb
    have h := genBodiesAux_position_collapse R (by rw [h5a, h5b]) gs.body_amount _ b hb
    rw [h, h5a]
    norm_num

/-- C8: `update` never reads, writes or removes out of bounds: the checked
semantics, which returns `none` exactly where the source would panic,
returns `some` of the unchecked result on every starting collection. -/
theorem update_never_panics (s : UniverseSettings) (dt : ℝ) (l : List Body) :
    updateChecked s dt l = some (update s dt l) :=
  updateChecked_eq s dt l

/-- C9: `generate_bodies` is total for every settings value, inverted
ranges included: the checked semantics, in which `gen_range` fails on an
empty range, always returns `some` because every draw is guarded by the
emptiness test (`start ≥ stop` collapses to `start`). -/
theorem generate_bodies_total {σ : Type} (R : Rng σ) (now : ℕ)
    (gs : GenerationSettings) :
    generate_bodiesChecked R now gs = some (generate_bodies R now gs) :=
  generate_bodiesChecked_eq R now gs

/-- C10: `update` never increases the body count: a merge removes exactly
one body net, a non-merging outer index leaves the collection unchanged,
and with collisions disabled the count is exactly preserved (the gravity
and integration phases never change it). -/
theorem update_never_grows (s : UniverseSettings) (dt : ℝ) (l : List Body) :
    (update s dt l).length ≤ l.length ∧
      (s.enable_collisions = false → (update s dt l).length = l.length) ∧
      ∀ i, ((findCollisionFrom l i (i + 1)).isSome →
          (collideStep l i).length + 1 = l.length) ∧
        (findCollisionFrom l i (i + 1) = none → collideStep l i = l) := by
  refine ⟨update_length_le s dt l, fun hc => update_length_of_disabled s dt l hc, ?_⟩
  intro i
  rcases collideStep_length_cases l i with ⟨hn, he⟩ | ⟨hs, hlen⟩
  · constructor
    · intro hsome
      rw [hn] at hsome
      simp at hsome
    · intro _
      exact he
  · constructor
    · intro _
      exact hlen
    · intro hnone
      rw [hnone] at hs
      simp at hs

end NBody
